import Mathlib

/-!
Formal model of the ETH-RSK token-bridge federation layer: the on-chain
federation consensus contract (membership and quorum governance plus the
per-transaction vote tally) and the off-chain version-adaptive contract
factory from src/federator/src/contracts/FederationFactory.js.

Addresses and hashes are modelled as natural numbers, with 0 standing for
the null address / null hash.  Remote calls made by the off-chain factory
are modelled as functions from the attempt index to an Except outcome, so
that the bounded retry policy can be stated exactly.
-/

namespace EthRskBridge

/-- A cross-chain transfer event: the seven fields from which the
transaction id is derived (the getTransactionId arguments). -/
structure Transfer where
  originalAssetId : Nat
  sender : Nat
  receiver : Nat
  amount : Nat
  sourceBlockHash : Nat
  sourceTxHash : Nat
  logIndex : Nat
deriving DecidableEq

/-- Modelled from the spec: the federation contract source is not under
src (only its Truffle test suite is).  The spec derives the transaction
id from the seven transfer fields via a collision-resistant hash in fixed
order; a collision-free hash is modelled as the identity injection on the
field tuple. -/
def computeTransactionId (t : Transfer) : Transfer := t

/-- Modelled from the spec: state of one federation contract instance
(MembershipRegistry plus TransactionVoteLedger, spec sections 3, 4.1 and
4.2); the Solidity source is not under src.  The field `settlements` is a
ghost log recording every invocation of the bridge settlement callback
(acceptTransfer), used to state the at-most-once settlement property. -/
structure FederationState where
  members : List Nat
  required : Nat
  bridge : Nat
  admin : Nat
  votes : List (Transfer × Nat)
  processed : List Transfer
  settlements : List Transfer
deriving DecidableEq

/-- Error taxonomy of the membership registry and vote ledger (spec
section 7). -/
inductive FedError where
  | Unauthorized
  | NullMember
  | NullBridge
  | DuplicateMember
  | NotAMember
  | TooManyMembers
  | InvalidQuorum
  | QuorumViolation
  | InvalidTransfer
deriving DecidableEq

/-- hasVoted read: whether `caller` has a recorded vote for `txId`. -/
def hasVoted (s : FederationState) (txId : Transfer) (caller : Nat) : Bool :=
  s.votes.contains (txId, caller)

/-- getVoteCount / getTransactionCount read: number of recorded votes for
`txId` (each federator is recorded at most once, so this is the number of
distinct voters). -/
def getVoteCount (s : FederationState) (txId : Transfer) : Nat :=
  (s.votes.filter (fun p => p.1 == txId)).length

/-- isExecuted / transactionWasProcessed read. -/
def isExecuted (s : FederationState) (txId : Transfer) : Bool :=
  s.processed.contains txId

/-- Modelled from the spec: the execution threshold of section 4.2 step 6,
`T = min (max Q 2) M` with `Q` the administratively configured quorum and
`M` the current member count. -/
def executionThreshold (s : FederationState) : Nat :=
  min (max s.required 2) s.members.length

/-- Modelled from the spec: the basic shape constraints of castVote step 2
(non-empty asset id, non-zero receiver, non-zero amount). -/
def validShape (t : Transfer) : Bool :=
  t.originalAssetId != 0 && t.receiver != 0 && t.amount != 0

/-- Bool check that a member list has no duplicates. -/
def allDistinct (l : List Nat) : Bool :=
  match l with
  | [] => true
  | x :: xs => !xs.contains x && allDistinct xs

/-- Modelled from the spec: the one-time `initialize(members, quorum,
bridgePointer, admin)` of section 4.1; the Solidity source is not under
src.  Fails with InvalidQuorum when the quorum is outside
[1, members.length], NullMember / DuplicateMember on a malformed list,
TooManyMembers above 50 members and NullBridge on an empty bridge
pointer. -/
def initFederation (mems : List Nat) (quorum bridgePointer adminAddr : Nat) :
    Except FedError FederationState :=
  if quorum < 1 || mems.length < quorum then .error .InvalidQuorum
  else if mems.contains 0 then .error .NullMember
  else if !(allDistinct mems) then .error .DuplicateMember
  else if 50 < mems.length then .error .TooManyMembers
  else if bridgePointer == 0 then .error .NullBridge
  else .ok ⟨mems, quorum, bridgePointer, adminAddr, [], [], []⟩

/-- Modelled from the spec: `addMember(id)` of section 4.1 (admin-only;
NullMember on the empty id, DuplicateMember when present, TooManyMembers
at capacity 50; on success appends the id). -/
def addMember (caller id : Nat) (s : FederationState) :
    Except FedError FederationState :=
  if caller != s.admin then .error .Unauthorized
  else if id == 0 then .error .NullMember
  else if s.members.contains id then .error .DuplicateMember
  else if 50 ≤ s.members.length then .error .TooManyMembers
  else .ok { s with members := s.members ++ [id] }

/-- Modelled from the spec: `removeMember(id)` of section 4.1 (admin-only;
NullMember, NotAMember, QuorumViolation when the removal would drop the
member count below the current quorum; on success removes the id keeping
the order of the remaining members). -/
def removeMember (caller id : Nat) (s : FederationState) :
    Except FedError FederationState :=
  if caller != s.admin then .error .Unauthorized
  else if id == 0 then .error .NullMember
  else if !(s.members.contains id) then .error .NotAMember
  else if s.members.length - 1 < s.required then .error .QuorumViolation
  else .ok { s with members := s.members.erase id }

/-- Modelled from the spec: `changeQuorum(n)` of section 4.1 (admin-only;
InvalidQuorum when n < 2 — the administrative hard floor — or when n
exceeds the member count). -/
def changeQuorum (caller n : Nat) (s : FederationState) :
    Except FedError FederationState :=
  if caller != s.admin then .error .Unauthorized
  else if n < 2 || s.members.length < n then .error .InvalidQuorum
  else .ok { s with required := n }

/-- Modelled from the spec: `castVote` (voteTransaction) of section 4.2;
the Solidity source is not under src.  Steps: membership check, transfer
shape check, no-op when the record is already executed, no-op when the
caller already voted, otherwise record the vote and evaluate the
execution threshold; at the threshold the settlement callback is invoked
(appended to the ghost `settlements` log) and, when settlement succeeds
(`settleOk`), the record is marked executed; when settlement fails the
vote stays recorded and the record stays unexecuted. -/
def castVote (settleOk : Bool) (t : Transfer) (caller : Nat)
    (s : FederationState) : Except FedError FederationState :=
  if !(s.members.contains caller) then .error .Unauthorized
  else if !(validShape t) then .error .InvalidTransfer
  else if s.processed.contains (computeTransactionId t) then .ok s
  else if s.votes.contains (computeTransactionId t, caller) then .ok s
  else if executionThreshold s ≤ getVoteCount s (computeTransactionId t) + 1 then
    if settleOk then
      .ok { s with votes := s.votes ++ [(computeTransactionId t, caller)],
                   processed := s.processed ++ [computeTransactionId t],
                   settlements := s.settlements ++ [computeTransactionId t] }
    else
      .ok { s with votes := s.votes ++ [(computeTransactionId t, caller)],
                   settlements := s.settlements ++ [computeTransactionId t] }
  else .ok { s with votes := s.votes ++ [(computeTransactionId t, caller)] }

/-- One castVote call in a trace, with settlement always succeeding; a
failed (rejected) call leaves the state unchanged. -/
def applyVote (s : FederationState) (call : Transfer × Nat) : FederationState :=
  match castVote true call.1 call.2 s with
  | .ok s' => s'
  | .error _ => s

/-- A sequence of castVote calls, with settlement always succeeding. -/
def runVotes (s : FederationState) (calls : List (Transfer × Nat)) :
    FederationState :=
  calls.foldl applyVote s

/-- The settlement callback was invoked at most once per transaction id. -/
def settlementsAtMostOnce (s : FederationState) : Prop :=
  ∀ txId : Transfer, s.settlements.count txId ≤ 1

/-- Auxiliary invariant: the settlement log has no duplicates and only
holds executed transaction ids. -/
def settleInv (s : FederationState) : Prop :=
  s.settlements.Nodup ∧ ∀ x, x ∈ s.settlements → x ∈ s.processed

/-- Membership invariants of spec section 3: member count within [1, 50]
and quorum within [1, member count]. -/
def memInv (s : FederationState) : Prop :=
  1 ≤ s.members.length ∧ s.members.length ≤ 50 ∧
    1 ≤ s.required ∧ s.required ≤ s.members.length

/-- A versioned federation handle returned by the factory: the legacy
interface (IFederationV1, old ABI) or the current one (IFederationV2). -/
inductive FederationHandle where
  | v1 (address : Nat)
  | v2 (address : Nat)
deriving DecidableEq

/-- CustomError from FederationFactory.js: a wrapping message plus the
original cause. -/
structure CustomError where
  message : String
  cause : String
deriving DecidableEq

/-- Modelled from the spec: utils.retry3Times is not under src; per the
spec's retry policy a remote call is attempted up to 3 times, each
attempt independent, and the outcome is the first success or the last
failure.  The remote call is modelled as a function from the attempt
index to its outcome. -/
def retry3Times {α : Type} (call : Nat → Except String α) : Except String α :=
  match call 0 with
  | .ok a => .ok a
  | .error _ =>
    match call 1 with
    | .ok a => .ok a
    | .error _ => call 2

/-- FederationFactory.getVersion: the version probe under retry; any
failure of all attempts is interpreted as the legacy revision tag. -/
def getVersion (versionCall : Nat → Except String String) : String :=
  match retry3Times versionCall with
  | .ok v => v
  | .error _ => "v1"

/-- FederationFactory.createInstance: probe the version of the contract at
`address` (the probe outcome may depend on the address, hence
`versionCall address`); return a v2-typed handle on tag v2, rebind with
the old ABI and return a v1-typed handle on tag v1, and fail on any other
tag. -/
def createInstance (versionCall : Nat → Nat → Except String String)
    (address : Nat) : Except String FederationHandle :=
  if getVersion (versionCall address) == "v2" then .ok (.v2 address)
  else if getVersion (versionCall address) == "v1" then .ok (.v1 address)
  else .error "Unknown Federation contract version"

/-- The unwrapped resolution pipeline shared by getMainFederationContract
and getSideFederationContract: look up the federation address on the
bridge (under retry), then create the versioned instance. -/
def resolveFederationPipeline (getFederation : Nat → Except String Nat)
    (versionCall : Nat → Nat → Except String String) :
    Except String FederationHandle :=
  match retry3Times getFederation with
  | .ok addr => createInstance versionCall addr
  | .error e => .error e

/-- The wrapping message used by getMainFederationContract. -/
def mainFederationErrorMessage : String :=
  "Exception creating Main Federation Contract"

/-- The wrapping message used by getSideFederationContract. -/
def sideFederationErrorMessage : String :=
  "Exception creating Side Federation Contract"

/-- FederationFactory.getMainFederationContract: run the resolution
pipeline against the main-chain bridge and wrap any failure in a
CustomError naming the main chain and carrying the cause. -/
def getMainFederationContract (getFederation : Nat → Except String Nat)
    (versionCall : Nat → Nat → Except String String) :
    Except CustomError FederationHandle :=
  match resolveFederationPipeline getFederation versionCall with
  | .ok h => .ok h
  | .error e => .error ⟨mainFederationErrorMessage, e⟩

/-- FederationFactory.getSideFederationContract: run the resolution
pipeline against the side-chain bridge and wrap any failure in a
CustomError naming the side chain and carrying the cause. -/
def getSideFederationContract (getFederation : Nat → Except String Nat)
    (versionCall : Nat → Nat → Except String String) :
    Except CustomError FederationHandle :=
  match resolveFederationPipeline getFederation versionCall with
  | .ok h => .ok h
  | .error e => .error ⟨sideFederationErrorMessage, e⟩

/-- Sample transfer used in concrete instantiations. -/
def sampleTransfer : Transfer := ⟨1, 2, 3, 4, 5, 6, 7⟩

/-- Sample two-member federation state with quorum 1. -/
def sampleState : FederationState :=
  { members := [10, 11], required := 1, bridge := 99, admin := 50,
    votes := [], processed := [], settlements := [] }

/-- Sample one-vote federation state with quorum 1 (threshold 2). -/
def sampleStateOneVote : FederationState :=
  { members := [10, 11], required := 1, bridge := 99, admin := 50,
    votes := [(sampleTransfer, 10)], processed := [], settlements := [] }

/-- Sample executed state: the transfer crossed after two votes, member 12
joined afterwards and has not voted. -/
def sampleStateExecuted : FederationState :=
  { members := [10, 11, 12], required := 1, bridge := 99, admin := 50,
    votes := [(sampleTransfer, 10), (sampleTransfer, 11)],
    processed := [sampleTransfer], settlements := [sampleTransfer] }

/-! ## Helper lemmas about the vote ledger -/

theorem getVoteCount_of_votes (s s' : FederationState) (t : Transfer)
    (c : Nat) (h : s'.votes = s.votes ++ [(t, c)]) :
    getVoteCount s' t = getVoteCount s t + 1 := by
  unfold getVoteCount
  rw [h, List.filter_append]
  simp

theorem castVote_executed_noop (b : Bool) (t : Transfer) (c : Nat)
    (s : FederationState) (hm : s.members.contains c = true)
    (hv : validShape t = true) (he : isExecuted s t = true) :
    castVote b t c s = .ok s := by
  have hm' : c ∈ s.members := by simpa using hm
  have he' : t ∈ s.processed := by simpa [isExecuted] using he
  simp [castVote, computeTransactionId, hm', hv, he']

/-- Master case analysis of a successful castVote call. -/
theorem castVote_ok_cases (b : Bool) (t : Transfer) (c : Nat)
    (s s' : FederationState) (h : castVote b t c s = .ok s') :
    (s' = s ∧ (s.processed.contains t = true ∨
      s.votes.contains (t, c) = true)) ∨
    (s.processed.contains t = false ∧ s.votes.contains (t, c) = false ∧
      executionThreshold s ≤ getVoteCount s t + 1 ∧ b = true ∧
      s' = { s with votes := s.votes ++ [(t, c)],
                    processed := s.processed ++ [t],
                    settlements := s.settlements ++ [t] }) ∨
    (s.processed.contains t = false ∧ s.votes.contains (t, c) = false ∧
      executionThreshold s ≤ getVoteCount s t + 1 ∧ b = false ∧
      s' = { s with votes := s.votes ++ [(t, c)],
                    settlements := s.settlements ++ [t] }) ∨
    (s.processed.contains t = false ∧ s.votes.contains (t, c) = false ∧
      getVoteCount s t + 1 < executionThreshold s ∧
      s' = { s with votes := s.votes ++ [(t, c)] }) := by
  unfold castVote at h
  simp only [computeTransactionId] at h
  split at h
  · exact Except.noConfusion h
  split at h
  · exact Except.noConfusion h
  split at h
  next hp =>
    exact Or.inl ⟨(Except.ok.inj h).symm, Or.inl hp⟩
  next hp =>
    split at h
    next hv =>
      exact Or.inl ⟨(Except.ok.inj h).symm, Or.inr hv⟩
    next hv =>
      have hp' : s.processed.contains t = false := by
        simpa using hp
      have hv' : s.votes.contains (t, c) = false := by
        simpa using hv
      split at h
      next hth =>
        cases b with
        | true =>
          exact Or.inr (Or.inl ⟨hp', hv', hth, rfl, (Except.ok.inj h).symm⟩)
        | false =>
          exact Or.inr (Or.inr (Or.inl
            ⟨hp', hv', hth, rfl, (Except.ok.inj h).symm⟩))
      next hth =>
        exact Or.inr (Or.inr (Or.inr
          ⟨hp', hv', by omega, (Except.ok.inj h).symm⟩))

theorem applyVote_settleInv (s : FederationState) (call : Transfer × Nat)
    (h : settleInv s) : settleInv (applyVote s call) := by
  unfold applyVote
  cases hc : castVote true call.1 call.2 s with
  | error e => exact h
  | ok s' =>
    rcases castVote_ok_cases true call.1 call.2 s s' hc with
      ⟨rfl, _⟩ | ⟨hp, _, _, _, rfl⟩ | ⟨_, _, _, hb, _⟩ | ⟨_, _, _, rfl⟩
    · exact h
    · obtain ⟨hnd, hsub⟩ := h
      have hnotmem : call.1 ∉ s.processed := by simpa using hp
      constructor
      · rw [List.nodup_append]
        refine ⟨hnd, List.nodup_singleton _, ?_⟩
        intro a ha hb
        rw [List.mem_singleton] at hb
        subst hb
        exact hnotmem (hsub _ ha)
      · intro x hx
        rcases List.mem_append.mp hx with hx | hx
        · exact List.mem_append.mpr (Or.inl (hsub _ hx))
        · exact List.mem_append.mpr (Or.inr hx)
    · exact Bool.noConfusion hb
    · exact h

theorem runVotes_settleInv (calls : List (Transfer × Nat))
    (s : FederationState) (h : settleInv s) :
    settleInv (runVotes s calls) := by
  induction calls generalizing s with
  | nil => exact h
  | cons c cs ih =>
    have : runVotes s (c :: cs) = runVotes (applyVote s c) cs := by
      simp [runVotes]
    rw [this]
    exact ih _ (applyVote_settleInv s c h)

/-! ## Theorems for the vote-ledger claims -/

/-- Claim C1: castVote marks a transaction executed and invokes the bridge
settlement callback exactly when the distinct vote count first reaches
`T = min (max Q 2) M` (and `T = 1` iff `M = 1` under the membership
invariants); below the threshold neither the executed mark nor the
settlement log changes; at the threshold (settlement succeeding) the
record is marked executed and the settlement callback is invoked; and
over any sequence of castVote calls with succeeding settlement from a
fresh-ledger state, settlement is invoked at most once per transaction
id. -/
theorem castVote_threshold_law :
    (∀ (b : Bool) (t : Transfer) (c : Nat) (s s' : FederationState),
      castVote b t c s = .ok s' →
      getVoteCount s' t < executionThreshold s →
      s'.processed = s.processed ∧ s'.settlements = s.settlements) ∧
    (∀ (t : Transfer) (c : Nat) (s : FederationState),
      s.members.contains c = true → validShape t = true →
      s.processed.contains t = false → s.votes.contains (t, c) = false →
      executionThreshold s ≤ getVoteCount s t + 1 →
      castVote true t c s =
        .ok { s with votes := s.votes ++ [(t, c)],
                     processed := s.processed ++ [t],
                     settlements := s.settlements ++ [t] }) ∧
    (∀ (t : Transfer) (c : Nat) (s : FederationState),
      s.members.contains c = true → validShape t = true →
      s.processed.contains t = false → s.votes.contains (t, c) = false →
      getVoteCount s t + 1 < executionThreshold s →
      castVote true t c s = .ok { s with votes := s.votes ++ [(t, c)] }) ∧
    (∀ s : FederationState, memInv s →
      (executionThreshold s = 1 ↔ s.members.length = 1)) ∧
    (∀ (s0 : FederationState) (calls : List (Transfer × Nat)),
      s0.settlements = [] → s0.processed = [] →
      settlementsAtMostOnce (runVotes s0 calls)) := by
  refine ⟨?_, ?_, ?_, ?_, ?_⟩
  · intro b t c s s' h hcount
    rcases castVote_ok_cases b t c s s' h with
      ⟨rfl, _⟩ | ⟨_, _, hth, _, rfl⟩ | ⟨_, _, hth, _, rfl⟩ | ⟨_, _, _, rfl⟩
    · exact ⟨rfl, rfl⟩
    · have := getVoteCount_of_votes s
        { s with votes := s.votes ++ [(t, c)],
                 processed := s.processed ++ [t],
                 settlements := s.settlements ++ [t] } t c rfl
      omega
    · have := getVoteCount_of_votes s
        { s with votes := s.votes ++ [(t, c)],
                 settlements := s.settlements ++ [t] } t c rfl
      omega
    · exact ⟨rfl, rfl⟩
  · intro t c s hm hv hp hvt hth
    have hm' : c ∈ s.members := by simpa using hm
    have hp' : t ∉ s.processed := by simpa using hp
    have hvt' : (t, c) ∉ s.votes := by simpa using hvt
    simp [castVote, computeTransactionId, hm', hv, hp', hvt', hth]
  · intro t c s hm hv hp hvt hth
    have hm' : c ∈ s.members := by simpa using hm
    have hp' : t ∉ s.processed := by simpa using hp
    have hvt' : (t, c) ∉ s.votes := by simpa using hvt
    have hth' : ¬ executionThreshold s ≤ getVoteCount s t + 1 := by omega
    simp [castVote, computeTransactionId, hm', hv, hp', hvt', hth']
  · intro s hi
    obtain ⟨h1, _, h3, h4⟩ := hi
    unfold executionThreshold
    omega
  · intro s0 calls hs hp
    have h0 : settleInv s0 := by
      constructor
      · rw [hs]; exact List.nodup_nil
      · intro x hx; rw [hs] at hx; exact absurd hx (List.not_mem_nil x)
    exact fun txId =>
      List.nodup_iff_count_le_one.mp (runVotes_settleInv calls s0 h0).1 txId

/-- Witness for C1: in a two-member quorum-1 federation (threshold 2) the
second distinct vote executes the transfer and invokes settlement. -/
theorem castVote_threshold_law_witness :
    castVote true sampleTransfer 11 sampleStateOneVote =
      .ok { sampleStateOneVote with
              votes := sampleStateOneVote.votes ++ [(sampleTransfer, 11)],
              processed := sampleStateOneVote.processed ++ [sampleTransfer],
              settlements :=
                sampleStateOneVote.settlements ++ [sampleTransfer] } :=
  castVote_threshold_law.2.1 sampleTransfer 11 sampleStateOneVote
    (by decide) (by decide) (by decide) (by decide) (by decide)

/-- Claim C2: when the vote count reaches the execution threshold but the
settlement callback fails, the caller's vote is still recorded (hasVoted
becomes true and getVoteCount increases) while the record is not marked
executed; a later call from a not-yet-voting member then re-attempts
settlement without any earlier vote being repeated. -/
theorem castVote_settlement_failure_recorded :
    (∀ (t : Transfer) (c : Nat) (s : FederationState),
      s.members.contains c = true → validShape t = true →
      s.processed.contains t = false → s.votes.contains (t, c) = false →
      executionThreshold s ≤ getVoteCount s t + 1 →
      ∃ s', castVote false t c s = .ok s' ∧
        hasVoted s' t c = true ∧
        getVoteCount s' t = getVoteCount s t + 1 ∧
        isExecuted s' t = false ∧
        s'.settlements = s.settlements ++ [t]) ∧
    (∀ (t : Transfer) (c2 : Nat) (w : FederationState),
      w.members.contains c2 = true → validShape t = true →
      w.processed.contains t = false → w.votes.contains (t, c2) = false →
      executionThreshold w ≤ getVoteCount w t →
      ∃ w', castVote true t c2 w = .ok w' ∧ isExecuted w' t = true ∧
        w'.settlements = w.settlements ++ [t]) := by
  constructor
  · intro t c s hm hv hp hvt hth
    have hm' : c ∈ s.members := by simpa using hm
    have hp' : t ∉ s.processed := by simpa using hp
    have hvt' : (t, c) ∉ s.votes := by simpa using hvt
    refine ⟨{ s with votes := s.votes ++ [(t, c)],
                     settlements := s.settlements ++ [t] }, ?_, ?_, ?_, ?_, rfl⟩
    · simp [castVote, computeTransactionId, hm', hv, hp', hvt', hth]
    · simp [hasVoted]
    · exact getVoteCount_of_votes s _ t c rfl
    · simpa [isExecuted] using hp
  · intro t c2 w hm hv hp hvt hth
    have hm' : c2 ∈ w.members := by simpa using hm
    have hp' : t ∉ w.processed := by simpa using hp
    have hvt' : (t, c2) ∉ w.votes := by simpa using hvt
    refine ⟨{ w with votes := w.votes ++ [(t, c2)],
                     processed := w.processed ++ [t],
                     settlements := w.settlements ++ [t] }, ?_, ?_, rfl⟩
    · have hth' : executionThreshold w ≤ getVoteCount w t + 1 := by omega
      simp [castVote, computeTransactionId, hm', hv, hp', hvt', hth']
    · simp [isExecuted]

/-- Witness for C2: threshold reached with failing settlement records the
vote without executing, at a concrete two-member state. -/
theorem castVote_settlement_failure_recorded_witness :
    ∃ s', castVote false sampleTransfer 11 sampleStateOneVote = .ok s' ∧
      hasVoted s' sampleTransfer 11 = true ∧
      getVoteCount s' sampleTransfer =
        getVoteCount sampleStateOneVote sampleTransfer + 1 ∧
      isExecuted s' sampleTransfer = false ∧
      s'.settlements = sampleStateOneVote.settlements ++ [sampleTransfer] :=
  castVote_settlement_failure_recorded.1 sampleTransfer 11 sampleStateOneVote
    (by decide) (by decide) (by decide) (by decide) (by decide)

/-! ## Helper lemmas about the factory -/

theorem retry3Times_allFail {α : Type} (call : Nat → Except String α)
    (h0 : ∃ e, call 0 = .error e) (h1 : ∃ e, call 1 = .error e)
    (h2 : ∃ e, call 2 = .error e) : ∃ e, retry3Times call = .error e := by
  obtain ⟨e0, h0⟩ := h0
  obtain ⟨e1, h1⟩ := h1
  obtain ⟨e2, h2⟩ := h2
  exact ⟨e2, by simp [retry3Times, h0, h1, h2]⟩

/-! ## Theorems for the claim statements -/

/-- Claim C3: whenever the version probe fails on all three retry
attempts, createInstance still succeeds and returns the legacy (v1)
handle for the probed address, while exhaustion of the retries of the
bridge federation-address lookup makes getMainFederationContract fail. -/
theorem probe_failure_yields_legacy_handle :
    (∀ (versionCall : Nat → Nat → Except String String) (address : Nat),
      (∀ i, i < 3 → ∃ e, versionCall address i = .error e) →
      createInstance versionCall address = .ok (.v1 address)) ∧
    (∀ (getFederation : Nat → Except String Nat)
       (versionCall : Nat → Nat → Except String String),
      (∀ i, i < 3 → ∃ e, getFederation i = .error e) →
      ∃ ce, getMainFederationContract getFederation versionCall =
        .error ce) := by
  constructor
  · intro versionCall address h
    obtain ⟨e, he⟩ := retry3Times_allFail (versionCall address)
      (h 0 (by omega)) (h 1 (by omega)) (h 2 (by omega))
    simp [createInstance, getVersion, he]
  · intro getFederation versionCall h
    obtain ⟨e, he⟩ := retry3Times_allFail getFederation
      (h 0 (by omega)) (h 1 (by omega)) (h 2 (by omega))
    exact ⟨⟨mainFederationErrorMessage, e⟩,
      by simp [getMainFederationContract, resolveFederationPipeline, he]⟩

/-- Witness for C3 at a concrete always-failing probe and lookup. -/
theorem probe_failure_yields_legacy_handle_witness :
    createInstance (fun _ _ => .error "probe method not found") 42 =
      .ok (.v1 42) ∧
    ∃ ce, getMainFederationContract (fun _ => .error "network down")
      (fun _ _ => .ok "v2") = .error ce :=
  ⟨probe_failure_yields_legacy_handle.1 (fun _ _ => .error "probe method not found")
      42 (fun _ _ => ⟨"probe method not found", rfl⟩),
    probe_failure_yields_legacy_handle.2 (fun _ => .error "network down")
      (fun _ _ => .ok "v2") (fun _ _ => ⟨"network down", rfl⟩)⟩

/-- Claim C4: when the version probe succeeds but reports a tag that is
neither v2 nor v1, createInstance fails with the
unknown-protocol-version error instead of returning a handle. -/
theorem unknown_version_tag_fails :
    ∀ (versionCall : Nat → Nat → Except String String) (address : Nat)
      (v : String),
      retry3Times (versionCall address) = .ok v →
      v ≠ "v2" → v ≠ "v1" →
      createInstance versionCall address =
        .error "Unknown Federation contract version" := by
  intro versionCall address v h hv2 hv1
  simp [createInstance, getVersion, h, hv1, hv2]

/-- Witness for C4 at a concrete probe reporting tag v3. -/
theorem unknown_version_tag_fails_witness :
    createInstance (fun _ _ => .ok "v3") 7 =
      .error "Unknown Federation contract version" :=
  unknown_version_tag_fails (fun _ _ => .ok "v3") 7 "v3" rfl
    (by decide) (by decide)

/-- Claim C5: every failure of getMainFederationContract or
getSideFederationContract — whether in the federation-address lookup or
in resolving the instance — surfaces as a single wrapping CustomError
whose message identifies the failing chain and whose cause is exactly
the error of the underlying resolution pipeline; and the two chains'
messages differ. -/
theorem federation_resolution_error_wrapped :
    (∀ (getFederation : Nat → Except String Nat)
       (versionCall : Nat → Nat → Except String String) (ce : CustomError),
      getMainFederationContract getFederation versionCall = .error ce →
      ce.message = mainFederationErrorMessage ∧
        resolveFederationPipeline getFederation versionCall =
          .error ce.cause) ∧
    (∀ (getFederation : Nat → Except String Nat)
       (versionCall : Nat → Nat → Except String String) (c : String),
      resolveFederationPipeline getFederation versionCall = .error c →
      getMainFederationContract getFederation versionCall =
        .error ⟨mainFederationErrorMessage, c⟩) ∧
    (∀ (getFederation : Nat → Except String Nat)
       (versionCall : Nat → Nat → Except String String) (ce : CustomError),
      getSideFederationContract getFederation versionCall = .error ce →
      ce.message = sideFederationErrorMessage ∧
        resolveFederationPipeline getFederation versionCall =
          .error ce.cause) ∧
    (∀ (getFederation : Nat → Except String Nat)
       (versionCall : Nat → Nat → Except String String) (c : String),
      resolveFederationPipeline getFederation versionCall = .error c →
      getSideFederationContract getFederation versionCall =
        .error ⟨sideFederationErrorMessage, c⟩) ∧
    mainFederationErrorMessage ≠ sideFederationErrorMessage := by
  refine ⟨?_, ?_, ?_, ?_, by decide⟩
  · intro getFederation versionCall ce h
    unfold getMainFederationContract at h
    cases hp : resolveFederationPipeline getFederation versionCall with
    | ok hdl => rw [hp] at h; exact Except.noConfusion h
    | error e =>
      rw [hp] at h
      cases Except.error.inj h
      exact ⟨rfl, by simp [hp]⟩
  · intro getFederation versionCall c h
    simp [getMainFederationContract, h]
  · intro getFederation versionCall ce h
    unfold getSideFederationContract at h
    cases hp : resolveFederationPipeline getFederation versionCall with
    | ok hdl => rw [hp] at h; exact Except.noConfusion h
    | error e =>
      rw [hp] at h
      cases Except.error.inj h
      exact ⟨rfl, by simp [hp]⟩
  · intro getFederation versionCall c h
    simp [getSideFederationContract, h]

/-- Witness for C5 at a concrete failing lookup on each chain. -/
theorem federation_resolution_error_wrapped_witness :
    getMainFederationContract (fun _ => .error "rpc timeout")
        (fun _ _ => .ok "v2") =
      .error ⟨mainFederationErrorMessage, "rpc timeout"⟩ ∧
    getSideFederationContract (fun _ => .error "rpc timeout")
        (fun _ _ => .ok "v2") =
      .error ⟨sideFederationErrorMessage, "rpc timeout"⟩ :=
  ⟨federation_resolution_error_wrapped.2.1 (fun _ => .error "rpc timeout")
      (fun _ _ => .ok "v2") "rpc timeout" rfl,
    federation_resolution_error_wrapped.2.2.2.1
      (fun _ => .error "rpc timeout") (fun _ _ => .ok "v2") "rpc timeout" rfl⟩

/-! ## Membership operation characterizations -/

theorem addMember_ok (c id : Nat) (s s' : FederationState)
    (h : addMember c id s = .ok s') :
    s'.members = s.members ++ [id] ∧ s'.required = s.required ∧
      s.members.length < 50 := by
  unfold addMember at h
  split at h
  · exact Except.noConfusion h
  split at h
  · exact Except.noConfusion h
  split at h
  · exact Except.noConfusion h
  split at h
  · exact Except.noConfusion h
  next h4 =>
    cases Except.ok.inj h
    exact ⟨rfl, rfl, by omega⟩

theorem removeMember_ok (c id : Nat) (s s' : FederationState)
    (h : removeMember c id s = .ok s') :
    s'.members = s.members.erase id ∧ s'.required = s.required ∧
      id ∈ s.members ∧ s.required ≤ s.members.length - 1 := by
  unfold removeMember at h
  split at h
  · exact Except.noConfusion h
  split at h
  · exact Except.noConfusion h
  split at h
  · exact Except.noConfusion h
  next h3 =>
    split at h
    · exact Except.noConfusion h
    next h4 =>
      cases Except.ok.inj h
      refine ⟨rfl, rfl, ?_, by omega⟩
      simpa using h3

theorem changeQuorum_ok (c n : Nat) (s s' : FederationState)
    (h : changeQuorum c n s = .ok s') :
    s'.members = s.members ∧ s'.required = n ∧ 2 ≤ n ∧
      n ≤ s.members.length := by
  unfold changeQuorum at h
  split at h
  · exact Except.noConfusion h
  next h2 =>
    split at h
    · exact Except.noConfusion h
    next h3 =>
      cases Except.ok.inj h
      have h3' : ¬ (n < 2 ∨ s.members.length < n) := by simpa using h3
      exact ⟨rfl, rfl, by omega, by omega⟩

theorem initFederation_ok (mems : List Nat) (q b a : Nat)
    (s : FederationState) (h : initFederation mems q b a = .ok s) :
    s.members = mems ∧ s.required = q ∧ 1 ≤ q ∧ q ≤ mems.length ∧
      mems.length ≤ 50 := by
  unfold initFederation at h
  split at h
  · exact Except.noConfusion h
  next h1 =>
    split at h
    · exact Except.noConfusion h
    split at h
    · exact Except.noConfusion h
    split at h
    next h4 =>
      exact Except.noConfusion h
    next h4 =>
      split at h
      · exact Except.noConfusion h
      cases Except.ok.inj h
      have h1' : ¬ (q < 1 ∨ mems.length < q) := by simpa using h1
      exact ⟨rfl, rfl, by omega, by omega, by omega⟩

/-! ## Theorems for the membership claims -/

/-- Claim C8: the administrative changeQuorum rejects any value below the
hard floor of 2 or above the member count with InvalidQuorum and accepts
everything in [2, member count], while the one-time initFederation path
accepts any quorum in [1, member count], including quorum 1. -/
theorem changeQuorum_floor_vs_init :
    (∀ (c n : Nat) (s : FederationState), c = s.admin →
      (n < 2 ∨ s.members.length < n) →
      changeQuorum c n s = .error .InvalidQuorum) ∧
    (∀ (c n : Nat) (s : FederationState), c = s.admin →
      2 ≤ n → n ≤ s.members.length →
      changeQuorum c n s = .ok { s with required := n }) ∧
    (∀ (mems : List Nat) (q b a : Nat),
      1 ≤ q → q ≤ mems.length → mems.contains 0 = false →
      allDistinct mems = true → mems.length ≤ 50 → b ≠ 0 →
      initFederation mems q b a = .ok ⟨mems, q, b, a, [], [], []⟩) := by
  refine ⟨?_, ?_, ?_⟩
  · intro c n s hc h
    subst hc
    have hcond : (n < 2 ∨ s.members.length < n) := h
    simp [changeQuorum, hcond]
  · intro c n s hc h2 h3
    subst hc
    have hcond : ¬ (n < 2 ∨ s.members.length < n) := by omega
    simp [changeQuorum, hcond]
  · intro mems q b a h1 h2 h0 hd hl hb
    have hq : ¬ (q = 0 ∨ mems.length < q) := by omega
    have h0' : 0 ∉ mems := by simpa using h0
    have hl' : ¬ 50 < mems.length := by omega
    simp [initFederation, hq, h0', hd, hl', hb]

/-- Witness for C8: quorum 1 is rejected administratively but accepted at
initialization, and quorum 2 is accepted administratively, on a concrete
two-member federation. -/
theorem changeQuorum_floor_vs_init_witness :
    changeQuorum 50 1 sampleState = .error .InvalidQuorum ∧
    changeQuorum 50 2 sampleState = .ok { sampleState with required := 2 } ∧
    initFederation [10, 11] 1 99 50 = .ok ⟨[10, 11], 1, 99, 50, [], [], []⟩ :=
  ⟨changeQuorum_floor_vs_init.1 50 1 sampleState rfl (Or.inl (by omega)),
    changeQuorum_floor_vs_init.2.1 50 2 sampleState rfl (by omega) (by decide),
    changeQuorum_floor_vs_init.2.2 [10, 11] 1 99 50 (by omega) (by decide)
      (by decide) (by decide) (by decide) (by decide)⟩

/-- Claim C9: initFederation establishes the membership invariants
(1 ≤ members ≤ 50 and 1 ≤ quorum ≤ members), every successful addMember,
removeMember and changeQuorum call preserves them, addMember never
succeeds at 50 members, and removeMember never succeeds when the removal
would drop the member count below the quorum (in particular the member
list is never emptied); rejected calls produce no successor state at
all. -/
theorem membership_invariants :
    (∀ (mems : List Nat) (q b a : Nat) (s : FederationState),
      initFederation mems q b a = .ok s → memInv s) ∧
    (∀ (c id : Nat) (s s' : FederationState), memInv s →
      addMember c id s = .ok s' → memInv s') ∧
    (∀ (c id : Nat) (s s' : FederationState), memInv s →
      removeMember c id s = .ok s' → memInv s') ∧
    (∀ (c n : Nat) (s s' : FederationState), memInv s →
      changeQuorum c n s = .ok s' → memInv s') ∧
    (∀ (c id : Nat) (s : FederationState), s.members.length = 50 →
      ∀ s', addMember c id s ≠ .ok s') ∧
    (∀ (c id : Nat) (s : FederationState),
      s.members.length - 1 < s.required →
      ∀ s', removeMember c id s ≠ .ok s') := by
  refine ⟨?_, ?_, ?_, ?_, ?_, ?_⟩
  · intro mems q b a s h
    obtain ⟨hm, hr, h1, h2, h3⟩ := initFederation_ok mems q b a s h
    have hlen : s.members.length = mems.length := by rw [hm]
    exact ⟨by omega, by omega, by omega, by omega⟩
  · intro c id s s' hi h
    obtain ⟨hm, hr, hlt⟩ := addMember_ok c id s s' h
    obtain ⟨i1, i2, i3, i4⟩ := hi
    have : s'.members.length = s.members.length + 1 := by
      rw [hm]; simp
    exact ⟨by omega, by omega, by omega, by omega⟩
  · intro c id s s' hi h
    obtain ⟨hm, hr, hmem, hq⟩ := removeMember_ok c id s s' h
    obtain ⟨i1, i2, i3, i4⟩ := hi
    have : s'.members.length = s.members.length - 1 := by
      rw [hm]; exact List.length_erase_of_mem hmem
    exact ⟨by omega, by omega, by omega, by omega⟩
  · intro c n s s' hi h
    obtain ⟨hm, hr, h2, h3⟩ := changeQuorum_ok c n s s' h
    obtain ⟨i1, i2, i3, i4⟩ := hi
    have hlen : s'.members.length = s.members.length := by rw [hm]
    exact ⟨by omega, by omega, by omega, by omega⟩
  · intro c id s hlen s' h
    obtain ⟨_, _, hlt⟩ := addMember_ok c id s s' h
    omega
  · intro c id s hlt s' h
    obtain ⟨_, _, _, hq⟩ := removeMember_ok c id s s' h
    omega

/-- Witness for C9: adding a member to the sample two-member federation
preserves the membership invariants. -/
theorem membership_invariants_witness :
    memInv { sampleState with members := [10, 11, 12] } :=
  membership_invariants.2.1 50 12 sampleState
    { sampleState with members := [10, 11, 12] }
    (by unfold memInv sampleState; decide) rfl

/-- Claim C6: castVote is idempotent per federator and transaction id: a
member who already voted for this transfer can call castVote again with
the same parameters; the call succeeds and returns the state unchanged,
so getVoteCount is unchanged. -/
theorem castVote_idempotent :
    ∀ (b : Bool) (t : Transfer) (c : Nat) (s : FederationState),
      s.members.contains c = true → validShape t = true →
      hasVoted s t c = true →
      castVote b t c s = .ok s := by
  intro b t c s hm hv hvt
  have hm' : c ∈ s.members := by simpa using hm
  have hvt' : (t, c) ∈ s.votes := by simpa [hasVoted] using hvt
  by_cases hp : t ∈ s.processed
  · simp [castVote, computeTransactionId, hm', hv, hp]
  · simp [castVote, computeTransactionId, hm', hv, hp, hvt']

/-- Witness for C6: the member who cast the only vote re-votes and the
state is unchanged. -/
theorem castVote_idempotent_witness :
    castVote true sampleTransfer 10 sampleStateOneVote =
      .ok sampleStateOneVote :=
  castVote_idempotent true sampleTransfer 10 sampleStateOneVote
    (by decide) (by decide) (by decide)

/-- Claim C7: on an already-executed transaction a castVote from a member
who had not voted succeeds, leaves the executed flag set, and does not
re-invoke the settlement callback (the settlement log is unchanged). -/
theorem castVote_after_execution_frame :
    ∀ (b : Bool) (t : Transfer) (c : Nat) (s : FederationState),
      s.members.contains c = true → validShape t = true →
      hasVoted s t c = false → isExecuted s t = true →
      ∃ s', castVote b t c s = .ok s' ∧ isExecuted s' t = true ∧
        s'.settlements = s.settlements :=
  fun b t c s hm hv _ he =>
    ⟨s, castVote_executed_noop b t c s hm hv he, he, rfl⟩

/-- Witness for C7: the late voter 12 on the executed sample state. -/
theorem castVote_after_execution_frame_witness :
    ∃ s', castVote true sampleTransfer 12 sampleStateExecuted = .ok s' ∧
      isExecuted s' sampleTransfer = true ∧
      s'.settlements = sampleStateExecuted.settlements :=
  castVote_after_execution_frame true sampleTransfer 12 sampleStateExecuted
    (by decide) (by decide) (by decide) (by decide)

/-- Claim C10: on an already-executed transaction a castVote from a member
who had not voted records nothing: afterwards hasVoted is still false for
that member and getVoteCount is unchanged. -/
theorem castVote_after_execution_no_record :
    ∀ (b : Bool) (t : Transfer) (c : Nat) (s : FederationState),
      s.members.contains c = true → validShape t = true →
      hasVoted s t c = false → isExecuted s t = true →
      ∃ s', castVote b t c s = .ok s' ∧ hasVoted s' t c = false ∧
        getVoteCount s' t = getVoteCount s t :=
  fun b t c s hm hv hnv he =>
    ⟨s, castVote_executed_noop b t c s hm hv he, hnv, rfl⟩

/-- Witness for C10: the late voter 12 on the executed sample state is not
recorded. -/
theorem castVote_after_execution_no_record_witness :
    ∃ s', castVote true sampleTransfer 12 sampleStateExecuted = .ok s' ∧
      hasVoted s' sampleTransfer 12 = false ∧
      getVoteCount s' sampleTransfer =
        getVoteCount sampleStateExecuted sampleTransfer :=
  castVote_after_execution_no_record true sampleTransfer 12
    sampleStateExecuted (by decide) (by decide) (by decide) (by decide)

end EthRskBridge
